import Mathlib

/-!
# Verification of the RainyModel routing proxy

A shallow embedding, in Lean 4, of the core of the RainyModel repository
(`app/routing.py`, `app/main.py`, `app/analytics.py`), together with
theorems settling the frozen specification claims.

Conventions of the embedding:
* Python/JSON values are modelled by the inductive `JVal`; Python dicts by
  association lists `Dict` with first-match lookup and replace-or-append
  update (Python dicts have unique keys, which these operations preserve).
* Wall-clock instants (`time.time()`) are passed explicitly as `Int`
  parameters named `now`.
* The floating-point percentile fractions `0.95` / `0.99` of
  `analytics._pctl` are embedded as exact rationals via a
  numerator/denominator pair; `int(len * p)` becomes Nat floor division
  `len * pnum / pden` (the two agree at every index used in this file).
* Fallible paths return an explicit `Outcome`, with `Outcome.escaped`
  marking an exception that crosses the HTTP boundary uncaught.
-/

namespace RainyModel

/-- JSON-ish values as parsed by the proxy (Python objects that originate
from `request.json()` and the YAML config). -/
inductive JVal where
  | null
  | bool (b : Bool)
  | num (n : Int)
  | str (s : String)
  | arr (xs : List JVal)
  | obj (kvs : List (String × JVal))
  deriving Repr

mutual

/-- Structural (Python `==`) equality for `JVal`, decidable by hand because
`deriving DecidableEq` does not handle the nested inductive. -/
def JVal.decEq : (a b : JVal) → Decidable (a = b)
  | .null, .null => isTrue rfl
  | .bool a, .bool b =>
    if h : a = b then isTrue (h ▸ rfl) else isFalse (fun e => h (by injection e))
  | .num a, .num b =>
    if h : a = b then isTrue (h ▸ rfl) else isFalse (fun e => h (by injection e))
  | .str a, .str b =>
    if h : a = b then isTrue (h ▸ rfl) else isFalse (fun e => h (by injection e))
  | .arr a, .arr b =>
    match JVal.decEqList a b with
    | isTrue h => isTrue (h ▸ rfl)
    | isFalse h => isFalse (fun e => h (by injection e))
  | .obj a, .obj b =>
    match JVal.decEqObj a b with
    | isTrue h => isTrue (h ▸ rfl)
    | isFalse h => isFalse (fun e => h (by injection e))
  | .null, .bool _ => isFalse (by intro h; exact JVal.noConfusion h)
  | .null, .num _ => isFalse (by intro h; exact JVal.noConfusion h)
  | .null, .str _ => isFalse (by intro h; exact JVal.noConfusion h)
  | .null, .arr _ => isFalse (by intro h; exact JVal.noConfusion h)
  | .null, .obj _ => isFalse (by intro h; exact JVal.noConfusion h)
  | .bool _, .null => isFalse (by intro h; exact JVal.noConfusion h)
  | .bool _, .num _ => isFalse (by intro h; exact JVal.noConfusion h)
  | .bool _, .str _ => isFalse (by intro h; exact JVal.noConfusion h)
  | .bool _, .arr _ => isFalse (by intro h; exact JVal.noConfusion h)
  | .bool _, .obj _ => isFalse (by intro h; exact JVal.noConfusion h)
  | .num _, .null => isFalse (by intro h; exact JVal.noConfusion h)
  | .num _, .bool _ => isFalse (by intro h; exact JVal.noConfusion h)
  | .num _, .str _ => isFalse (by intro h; exact JVal.noConfusion h)
  | .num _, .arr _ => isFalse (by intro h; exact JVal.noConfusion h)
  | .num _, .obj _ => isFalse (by intro h; exact JVal.noConfusion h)
  | .str _, .null => isFalse (by intro h; exact JVal.noConfusion h)
  | .str _, .bool _ => isFalse (by intro h; exact JVal.noConfusion h)
  | .str _, .num _ => isFalse (by intro h; exact JVal.noConfusion h)
  | .str _, .arr _ => isFalse (by intro h; exact JVal.noConfusion h)
  | .str _, .obj _ => isFalse (by intro h; exact JVal.noConfusion h)
  | .arr _, .null => isFalse (by intro h; exact JVal.noConfusion h)
  | .arr _, .bool _ => isFalse (by intro h; exact JVal.noConfusion h)
  | .arr _, .num _ => isFalse (by intro h; exact JVal.noConfusion h)
  | .arr _, .str _ => isFalse (by intro h; exact JVal.noConfusion h)
  | .arr _, .obj _ => isFalse (by intro h; exact JVal.noConfusion h)
  | .obj _, .null => isFalse (by intro h; exact JVal.noConfusion h)
  | .obj _, .bool _ => isFalse (by intro h; exact JVal.noConfusion h)
  | .obj _, .num _ => isFalse (by intro h; exact JVal.noConfusion h)
  | .obj _, .str _ => isFalse (by intro h; exact JVal.noConfusion h)
  | .obj _, .arr _ => isFalse (by intro h; exact JVal.noConfusion h)

def JVal.decEqList : (a b : List JVal) → Decidable (a = b)
  | [], [] => isTrue rfl
  | [], _ :: _ => isFalse (by intro h; exact List.noConfusion h)
  | _ :: _, [] => isFalse (by intro h; exact List.noConfusion h)
  | x :: xs, y :: ys =>
    match JVal.decEq x y with
    | isFalse h => isFalse (fun e => h (by injection e))
    | isTrue h1 =>
      match JVal.decEqList xs ys with
      | isTrue h2 => isTrue (by rw [h1, h2])
      | isFalse h => isFalse (fun e => h (by injection e))

def JVal.decEqObj : (a b : List (String × JVal)) → Decidable (a = b)
  | [], [] => isTrue rfl
  | [], _ :: _ => isFalse (by intro h; exact List.noConfusion h)
  | _ :: _, [] => isFalse (by intro h; exact List.noConfusion h)
  | (k1, v1) :: xs, (k2, v2) :: ys =>
    if hk : k1 = k2 then
      match JVal.decEq v1 v2 with
      | isFalse h => isFalse (fun e => by
          injection e with e1 e2; exact h (congrArg Prod.snd e1))
      | isTrue hv =>
        match JVal.decEqObj xs ys with
        | isTrue h2 => isTrue (by rw [hk, hv, h2])
        | isFalse h => isFalse (fun e => h (by injection e))
    else isFalse (fun e => by
        injection e with e1 e2; exact hk (congrArg Prod.fst e1))

end

instance : DecidableEq JVal := JVal.decEq

/-- Python dict, as the ordered association list of its items. -/
abbrev Dict := List (String × JVal)

/-- `d.get(k)`: first-match lookup (keys of a Python dict are unique, so
first-match is the dict lookup). -/
def dget (d : Dict) (k : String) : Option JVal :=
  match d with
  | [] => none
  | (k1, v) :: rest => if k1 = k then some v else dget rest k

/-- `d[k] = v`: replace the value at an existing key in place, otherwise
append the new item (Python dicts keep insertion order). -/
def dset (d : Dict) (k : String) (v : JVal) : Dict :=
  match d with
  | [] => [(k, v)]
  | (k1, v1) :: rest => if k1 = k then (k1, v) :: rest else (k1, v1) :: dset rest k v

/-- Python truthiness of a JSON value (`if val:`). -/
def truthy : JVal → Bool
  | .null => false
  | .bool b => b
  | .num n => n ≠ 0
  | .str s => s ≠ ""
  | .arr xs => !xs.isEmpty
  | .obj kvs => !kvs.isEmpty

/-- One character of `json.dumps` string escaping (ASCII fragment: quote,
backslash and the common control characters; the witnesses in this file
only serialise plain ASCII text). -/
def escChar (c : Char) : String :=
  if c = '\\' then "\\\\"
  else if c = '"' then "\\\""
  else if c = '\n' then "\\n"
  else if c = '\r' then "\\r"
  else if c = '\t' then "\\t"
  else String.singleton c

/-- `json.dumps` of a string literal. -/
def jstr (s : String) : String :=
  "\"" ++ String.join (s.data.map escChar) ++ "\""

mutual

/-- `json.dumps(v)` with the default separators `", "` and `": "`. -/
def dumps : JVal → String
  | .null => "null"
  | .bool true => "true"
  | .bool false => "false"
  | .num n => toString n
  | .str s => jstr s
  | .arr xs => "[" ++ dumpsList xs ++ "]"
  | .obj kvs => "\x7b" ++ dumpsObj kvs ++ "\x7d"

def dumpsList : List JVal → String
  | [] => ""
  | [x] => dumps x
  | x :: y :: rest => dumps x ++ ", " ++ dumpsList (y :: rest)

def dumpsObj : List (String × JVal) → String
  | [] => ""
  | [(k, v)] => jstr k ++ ": " ++ dumps v
  | (k, v) :: p :: rest => jstr k ++ ": " ++ dumps v ++ ", " ++ dumpsObj (p :: rest)

end

/-! ## `app/routing.py` — `RainyModelRouter` -/

/-- The `route_info` triple attached to each deployment. -/
structure RouteInfo where
  route : String
  upstream : String
  model : String
  deriving DecidableEq, Repr

/-- A deployment dict as built by `RainyModelRouter.__init__`. -/
structure Deployment where
  litellm_params : Dict
  model_info : Dict
  tier : String
  route_info : RouteInfo
  deriving DecidableEq, Repr

/-- Post-construction state of a `RainyModelRouter`:
`_deployments` (alias ↦ ordered deployment list, a dict built with
`setdefault(...).append`) and `_hf_credits_exhausted_until`. -/
structure Router where
  deployments : List (String × List Deployment)
  hf_credits_exhausted_until : Int
  deriving Repr

def TIER_FREE_OLLAMAFREE : String := "free-ollamafree"
def TIER_FREE_HF : String := "free-hf"
def TIER_INTERNAL : String := "internal"
def TIER_PREMIUM : String := "premium"

/-- `self._deployments.get(model, [])`. -/
def deps_for (r : Router) (model : String) : List Deployment :=
  match r.deployments.lookup model with
  | some l => l
  | none => []

/-- `mark_hf_credits_exhausted(duration_seconds=86400)`:
`self._hf_credits_exhausted_until = time.time() + duration_seconds`. -/
def mark_hf_credits_exhausted (r : Router) (now : Int) (duration_seconds : Int := 86400) :
    Router :=
  { r with hf_credits_exhausted_until := now + duration_seconds }

/-- `_is_hf_available`: `time.time() > self._hf_credits_exhausted_until`. -/
def is_hf_available (r : Router) (now : Int) : Bool :=
  now > r.hf_credits_exhausted_until

/-- `_get_tier_order(policy)`. Note: `TIER_FREE_OLLAMAFREE` appears in no
branch of the source function. -/
def get_tier_order (policy : String) : List String :=
  if policy = "uncensored" then
    [TIER_INTERNAL, TIER_FREE_HF, TIER_PREMIUM]
  else if policy = "premium" then
    [TIER_PREMIUM, TIER_FREE_HF, TIER_INTERNAL]
  else if policy = "free" then
    [TIER_FREE_HF, TIER_INTERNAL, TIER_PREMIUM]
  else
    [TIER_FREE_HF, TIER_INTERNAL, TIER_PREMIUM]

/-- Inner loop of the tier pass: `for dep in deployments: if dep["tier"] ==
tier and dep not in result: result.append(dep)`. -/
def add_tier (deployments : List Deployment) (tier : String) (result : List Deployment) :
    List Deployment :=
  deployments.foldl
    (fun res dep => if dep.tier = tier ∧ dep ∉ res then res ++ [dep] else res) result

/-- The tier-ordered pass of `get_ordered_deployments`: `for tier in order`,
skipping `free-hf` while the HF-credit gate is active. -/
def tier_pass (r : Router) (now : Int) (deployments : List Deployment)
    (order : List String) : List Deployment :=
  order.foldl
    (fun res tier =>
      if tier = TIER_FREE_HF ∧ ¬ is_hf_available r now then res
      else add_tier deployments tier res) []

/-- The trailing non-tier fallback: `for dep in deployments: if dep not in
result: result.append(dep)`. -/
def non_tier_fallback (deployments : List Deployment) (result : List Deployment) :
    List Deployment :=
  deployments.foldl (fun res dep => if dep ∉ res then res ++ [dep] else res) result

/-- `get_ordered_deployments(self, model, policy="auto")`. -/
def get_ordered_deployments (r : Router) (now : Int) (model : String)
    (policy : String := "auto") : List Deployment :=
  let deployments := deps_for r model
  if deployments.isEmpty then []
  else
    non_tier_fallback deployments (tier_pass r now deployments (get_tier_order policy))

/-- The keyword parameters accepted by `RainyModelRouter.get_ordered_deployments`
as defined in `app/routing.py`: `def get_ordered_deployments(self, model: str,
policy: str = "auto")`. -/
def get_ordered_deployments_keywords : List String := ["model", "policy"]

/-! ## `app/analytics.py` — metrics collector -/

/-- `RequestRecord`: single completed (or failed) request. -/
structure RequestRecord where
  timestamp : Int
  model_alias : String
  upstream : String
  route : String
  actual_model : String
  policy : String
  latency_ms : Nat
  success : Bool
  status_code : Nat
  is_stream : Bool
  input_tokens : Nat := 0
  output_tokens : Nat := 0
  error_type : Option String := none
  error_message : Option String := none
  fallback_from : Option String := none
  deriving DecidableEq, Repr

/-- Default `max_records` of `MetricsCollector`. -/
def MAX_RECORDS : Nat := 50000

/-- `MetricsCollector.record`: append to the bounded deque (`maxlen =
max_records`); the oldest entries fall off the front when full. -/
def record (records : List RequestRecord) (rec : RequestRecord)
    (max_records : Nat := MAX_RECORDS) : List RequestRecord :=
  let l := records ++ [rec]
  if max_records < l.length then l.drop (l.length - max_records) else l

/-- `_pctl(sorted_vals, p)` with the float `p` given as the exact rational
`pnum / pden`: index `min(int(len * p), len - 1)` into the sorted list
(`int(len * p) = len * pnum / pden` in Nat floor division). -/
def pctl (sorted_vals : List Nat) (pnum pden : Nat) : Nat :=
  if sorted_vals.isEmpty then 0
  else sorted_vals.getD (min (sorted_vals.length * pnum / pden) (sorted_vals.length - 1)) 0

/-- The integer-valued fields of the dict returned by
`MetricsCollector.get_overview`. The three float-valued display fields
(`success_pct`, `cost_usd`, `stream_pct`) are percentages/cost rounded for
display only; no claim concerns them and floating point is outside this
embedding, so they are omitted. -/
structure Overview where
  uptime_s : Int
  total : Nat
  ok : Nat
  err : Nat
  avg_ms : Nat
  med_ms : Nat
  p95_ms : Nat
  p99_ms : Nat
  min_ms : Nat
  max_ms : Nat
  rpm : Nat
  input_tokens : Nat
  output_tokens : Nat
  total_tokens : Nat
  providers : Nat
  deriving DecidableEq, Repr

/-- `MetricsCollector.get_overview` over a snapshot `recs` (the deque copied
under the lock), at wall-clock `now` for a collector started at
`start_time`. `sorted(...)` is embedded as a stable sort;
`int(statistics.mean)` / `int(statistics.median)` are the Nat floor
computations below (exact for the nonnegative-integer latencies the
pipeline produces). -/
def get_overview (recs : List RequestRecord) (now start_time : Int) : Overview :=
  let uptime := now - start_time
  if recs.isEmpty then
    { uptime_s := uptime, total := 0, ok := 0, err := 0, avg_ms := 0, med_ms := 0,
      p95_ms := 0, p99_ms := 0, min_ms := 0, max_ms := 0, rpm := 0,
      input_tokens := 0, output_tokens := 0, total_tokens := 0, providers := 0 }
  else
    let ok := recs.filter (·.success)
    let lats := (recs.map (·.latency_ms)).insertionSort (· ≤ ·)
    let recent := (recs.filter (fun r => now - r.timestamp < 60)).length
    let inp := (recs.map (·.input_tokens)).sum
    let out := (recs.map (·.output_tokens)).sum
    { uptime_s := uptime
      total := recs.length
      ok := ok.length
      err := recs.length - ok.length
      avg_ms := lats.sum / lats.length
      med_ms :=
        if lats.length % 2 = 1 then lats.getD (lats.length / 2) 0
        else (lats.getD (lats.length / 2 - 1) 0 + lats.getD (lats.length / 2) 0) / 2
      p95_ms := pctl lats 95 100
      p99_ms := pctl lats 99 100
      min_ms := lats.getD 0 0
      max_ms := (lats.getLast?).getD 0
      rpm := recent
      input_tokens := inp
      output_tokens := out
      total_tokens := inp + out
      providers := ((recs.map (·.upstream)).dedup).length }

/-! ## `app/main.py` — rate limiting, parameter passthrough, the fallback
loop and the streaming generator -/

def RATE_LIMIT_WINDOW : Int := 60

def RATE_LIMIT_MAX : Nat := 60

/-- Replace-or-append update of the `_rate_limits` mapping
(`defaultdict(list)`). -/
def set_window (m : List (String × List Int)) (k : String) (v : List Int) :
    List (String × List Int) :=
  match m with
  | [] => [(k, v)]
  | (k1, v1) :: rest => if k1 = k then (k1, v) :: rest else (k1, v1) :: set_window rest k v

/-- `_check_rate_limit(api_key)`: prune the key's window to timestamps with
`now - t < RATE_LIMIT_WINDOW`; deny (without appending) when 60 or more
survive, otherwise append `now` and allow. Returns the updated mapping and
the verdict. -/
def check_rate_limit (m : List (String × List Int)) (api_key : String) (now : Int) :
    List (String × List Int) × Bool :=
  let window := (m.lookup api_key).getD []
  let pruned := window.filter (fun t => now - t < RATE_LIMIT_WINDOW)
  if RATE_LIMIT_MAX ≤ pruned.length then
    (set_window m api_key pruned, false)
  else
    (set_window m api_key (pruned ++ [now]), true)

/-- The closed set of body keys copied into the upstream parameter bag. -/
def PASSTHROUGH_KEYS : List String :=
  ["temperature", "max_tokens", "top_p", "frequency_penalty", "presence_penalty",
   "stop", "n", "tools", "tool_choice", "response_format", "seed"]

/-- The copy loop `for key in (...): val = body.get(key); if val is not None:
params[key] = val` (a JSON `null` in the body is Python `None`, so
present-but-null keys are not copied). -/
def copy_passthrough (body : Dict) (keys : List String) (params : Dict) : Dict :=
  keys.foldl
    (fun p key =>
      match dget body key with
      | some v => if v = JVal.null then p else dset p key v
      | none => p) params

/-- Construction of the upstream parameter bag for one attempt
(`main.py` lines 339–358): shallow copy of the deployment's
`litellm_params`, `messages` overwritten from `body.get("messages", [])`,
`stream = True` when the request is streaming, then the passthrough loop. -/
def build_params (dep_params : Dict) (body : Dict) (is_stream : Bool) : Dict :=
  let params := dep_params
  let params := dset params "messages" ((dget body "messages").getD (JVal.arr []))
  let params := if is_stream then dset params "stream" (JVal.bool true) else params
  copy_passthrough body PASSTHROUGH_KEYS params

/-- The error frame body built by `_stream_chunks` when chunk iteration
raises. -/
def stream_error_json (upstream : String) (e : String) : JVal :=
  .obj [("error", .obj
    [("message", .str ("Stream interrupted from " ++ upstream ++ ": " ++ e)),
     ("type", .str "stream_error")])]

/-- The frames produced by the `try`/`except` of `_stream_chunks`: one
`data:` frame per chunk yielded by the upstream iterator; if the iterator
raises after those chunks (`err = some e`), one error frame. -/
def stream_try_frames (chunks : List Dict) (err : Option String) (upstream : String) :
    List String :=
  match chunks with
  | c :: rest => ("data: " ++ dumps (JVal.obj c) ++ "\n\n") :: stream_try_frames rest err upstream
  | [] =>
    match err with
    | some e => ["data: " ++ dumps (stream_error_json upstream e) ++ "\n\n"]
    | none => []

/-- `_stream_chunks(response, route_info)`: the `try`/`except` frames, then
always the terminator. The upstream streaming response is modelled by the
chunk dicts it yields and the error (if any) its iterator then raises. -/
def stream_chunks (chunks : List Dict) (err : Option String) (route_info : RouteInfo) :
    List String :=
  stream_try_frames chunks err route_info.upstream ++ ["data: [DONE]\n\n"]

/-- What `litellm.acompletion(**params)` hands back on success: a unary
response object (its `model_dump()` dict) or a streaming response (the
chunk dicts its async iterator yields, and the error, if any, the iterator
then raises). -/
inductive UpstreamResult where
  | unary (resp : Dict)
  | stream (chunks : List Dict) (err : Option String)
  deriving DecidableEq, Repr

/-- Outcome of one `litellm.acompletion` attempt: a result, or a raised
exception with its type name and display message. -/
inductive AttemptResult where
  | ok (r : UpstreamResult)
  | exn (name : String) (msg : String)
  deriving DecidableEq, Repr

/-- What `chat_completions` hands to the HTTP layer: a JSON response, a
streaming (SSE) response, or an exception escaping uncaught. -/
inductive Outcome where
  | response (status : Nat) (body : JVal) (headers : List (String × String))
  | streaming (headers : List (String × String)) (frames : List String)
  | escaped (exn : String)
  deriving DecidableEq, Repr

/-- Headers attached to a successful (200 / streaming) response, including
`x-rainymodel-fallback-reason = type(last_error).__name__` when an earlier
deployment failed. -/
def success_headers (ri : RouteInfo) (latency_ms : Nat) (last_error_name : Option String) :
    List (String × String) :=
  [("x-rainymodel-route", ri.route),
   ("x-rainymodel-upstream", ri.upstream),
   ("x-rainymodel-model", ri.model),
   ("x-rainymodel-latency-ms", toString latency_ms)] ++
  (match last_error_name with
   | some n => [("x-rainymodel-fallback-reason", n)]
   | none => [])

/-- Body of the final 502 response (`f"All upstreams failed for {model}:
{last_error!s}"`, or the no-deployments message). -/
def exhaust_body (model : String) (last_error_msg : Option String) : JVal :=
  .obj [("error", .obj
    [("message", .str (match last_error_msg with
        | some e => "All upstreams failed for " ++ model ++ ": " ++ e
        | none => "No deployments found for " ++ model)),
     ("type", .str "upstream_error")])]

/-- Headers of the final 502 response. -/
def exhaust_headers (model : String) (latency_ms : Nat) : List (String × String) :=
  [("x-rainymodel-route", "error"),
   ("x-rainymodel-upstream", "none"),
   ("x-rainymodel-model", model),
   ("x-rainymodel-latency-ms", toString latency_ms)]

/-- The `for dep in deployments: ... except Exception: continue` fallback
loop of `chat_completions` (lines 337–426), followed by the 502 response
when it exhausts. The upstream client is an oracle mapping the attempt
index and the parameter bag built for it to the attempt's outcome; elapsed
wall time is abstracted by `latency_ms`. Returns the outcome together with
the number of deployments attempted. -/
def fallback_loop (deps : List Deployment) (body : Dict) (model : String)
    (is_stream : Bool) (oracle : Nat → Dict → AttemptResult) (latency_ms : Nat)
    (idx : Nat := 0) (last_error : Option (String × String) := none) : Outcome × Nat :=
  match deps with
  | [] =>
    (Outcome.response 502 (exhaust_body model (last_error.map Prod.snd))
      (exhaust_headers model latency_ms), idx)
  | dep :: rest =>
    let params := build_params dep.litellm_params body is_stream
    match oracle idx params with
    | .exn name msg =>
      fallback_loop rest body model is_stream oracle latency_ms (idx + 1) (some (name, msg))
    | .ok r =>
      let headers := success_headers dep.route_info latency_ms (last_error.map Prod.fst)
      if is_stream then
        match r with
        | .stream chunks err =>
          (Outcome.streaming headers (stream_chunks chunks err dep.route_info), idx + 1)
        | .unary _ =>
          -- `async for` over a non-streaming response object raises.
          (Outcome.escaped "TypeError", idx + 1)
      else
        match r with
        | .unary resp => (Outcome.response 200 (.obj resp) headers, idx + 1)
        | .stream _ _ =>
          -- `model_dump()`/`dict()` of a stream wrapper is not a unary result;
          -- a well-typed adapter never produces this combination.
          (Outcome.escaped "TypeError", idx + 1)

/-- `_check_auth`: no master key configured (unset or empty) accepts
everything, otherwise the `Authorization` header must be
`Bearer <master key>`. -/
def check_auth (master_key : Option String) (authorization : Option String) : Bool :=
  match master_key with
  | none => true
  | some mk =>
    if mk = "" then true
    else
      match authorization with
      | some a => if a.startsWith "Bearer " then a.drop 7 = mk else false
      | none => false

/-- The caller key used for rate limiting. -/
def api_key_of (authorization : Option String) : String :=
  match authorization with
  | some a => if a.startsWith "Bearer " then a.drop 7 else "anonymous"
  | none => "anonymous"

/-- An inbound `POST /v1/chat/completions` request: the headers the endpoint
reads and the parsed JSON body. The embedding covers bodies whose `model`
entry, when present, is a string (as every OpenAI-compatible client
sends). -/
structure Request where
  authorization : Option String
  policy_header : Option String
  provider_override : Option String
  body : Dict
  deriving Repr

/-- `body.get("model", "rainymodel/auto")`. -/
def request_model (body : Dict) : String :=
  match dget body "model" with
  | some (.str s) => s
  | _ => "rainymodel/auto"

/-- Process-wide mutable state seen by `chat_completions`: the module-level
`_rate_limits` mapping, whether lifespan initialisation has completed
(`_router`/`_rm_router` set), the `RainyModelRouter`, and the records deque
of the `analytics.collector` singleton. -/
structure ServerState where
  rate_limits : List (String × List Int)
  ready : Bool
  rm_router : Router
  records : List RequestRecord
  deriving Repr

/-- The keyword arguments that `main.py` line 332–334 passes to
`get_ordered_deployments` beyond the positional `(model, policy)`. -/
def planning_call_kwargs : List String := ["provider_override"]

/-- The `POST /v1/chat/completions` handler: auth check, rate limiting,
readiness check, alias coercion, then the planning call and the fallback
loop. A Python call supplying a keyword argument the callee's signature
does not declare raises `TypeError` at the call site; the call at line 332
passes `provider_override=`, which `routing.get_ordered_deployments` does
not accept, and the call stands outside the loop's `try`, so the exception
escapes. `main.py` never touches the metrics collector, so `records` is
returned unchanged on every path. -/
def chat_completions (master_key : Option String) (st : ServerState) (now : Int)
    (req : Request) (oracle : Nat → Dict → AttemptResult) (latency_ms : Nat) :
    Outcome × ServerState :=
  if ¬ check_auth master_key req.authorization then
    (Outcome.response 401 (.obj [("error", .str "Unauthorized")]) [], st)
  else
    let api_key := api_key_of req.authorization
    let rl := check_rate_limit st.rate_limits api_key now
    let st1 : ServerState := { st with rate_limits := rl.1 }
    if ¬ rl.2 then
      (Outcome.response 429 (.obj [("error", .obj
        [("message", .str "Rate limit exceeded. Try again later."),
         ("type", .str "rate_limit_error")])]) [], st1)
    else if ¬ st1.ready then
      (Outcome.response 503 (.obj [("error", .str "Service not ready")]) [], st1)
    else
      let model0 := request_model req.body
      let model := if ¬ model0.startsWith "rainymodel/" then "rainymodel/auto" else model0
      let body := dset req.body "model" (.str model)
      let policy := req.policy_header.getD "auto"
      let is_stream := truthy ((dget body "stream").getD (.bool false))
      if planning_call_kwargs.all (fun k => k ∈ get_ordered_deployments_keywords) then
        let deps := get_ordered_deployments st1.rm_router now model policy
        ((fallback_loop deps body model is_stream oracle latency_ms).1, st1)
      else
        (Outcome.escaped "TypeError", st1)

/-- Status code of an HTTP outcome (`none` for a streaming response or an
escaped exception). -/
def status_of : Outcome → Option Nat
  | .response s _ _ => some s
  | .streaming _ _ => none
  | .escaped _ => none

/-! ## Concrete fixtures used by counterexamples and witnesses -/

/-- A `free-hf` deployment. -/
def hfDep : Deployment :=
  { litellm_params := [("model", .str "huggingface/HuggingFaceH4/zephyr-7b-beta")]
    model_info := [("description", .str "hf free tier")]
    tier := TIER_FREE_HF
    route_info := ⟨"free", "hf", "huggingface/HuggingFaceH4/zephyr-7b-beta"⟩ }

/-- A `free-ollamafree` deployment. -/
def ofDep : Deployment :=
  { litellm_params :=
      [("model", .str "openai/llama3.3-70b"),
       ("api_base", .str "https://ollamafreeapi.orcest.ai/v1")]
    model_info := [("description", .str "ollamafree tier")]
    tier := TIER_FREE_OLLAMAFREE
    route_info := ⟨"free", "ollamafreeapi", "openai/llama3.3-70b"⟩ }

/-- An `internal` deployment. -/
def intDep : Deployment :=
  { litellm_params := [("model", .str "openai/qwen2.5-coder")]
    model_info := [("description", .str "internal ollama")]
    tier := TIER_INTERNAL
    route_info := ⟨"internal", "ollama", "openai/qwen2.5-coder"⟩ }

/-- A ready server state with an empty rate-limit map and a router holding
`deps` for `rainymodel/auto`. -/
def mkState (deps : List Deployment) : ServerState :=
  { rate_limits := []
    ready := true
    rm_router := { deployments := [("rainymodel/auto", deps)], hf_credits_exhausted_until := 0 }
    records := [] }

/-- A plain non-streaming request for `rainymodel/auto`. -/
def req0 : Request :=
  { authorization := none
    policy_header := none
    provider_override := none
    body := [("model", .str "rainymodel/auto"),
             ("messages", .arr [.obj [("role", .str "user"), ("content", .str "hi")]])] }

/-- An adapter oracle whose every attempt raises `APIError("boom")`. -/
def failOracle : Nat → Dict → AttemptResult := fun _ _ => .exn "APIError" "boom"

/-! ## Claims -/

/-- C1. The claim reads: for every accepted POST /v1/chat/completions
request, no exception escapes to the HTTP boundary. The code violates it:
`main.py` line 332 calls `get_ordered_deployments(model, policy,
provider_override=...)`, but the `routing.py` signature accepts only
`(model, policy)`, so the planning call itself raises `TypeError` — outside
the fallback loop's `try` — and the exception escapes on every request that
passes auth, rate limiting and the readiness check. -/
theorem C1_planning_typeerror_escapes (master_key : Option String) (st : ServerState)
    (now : Int) (req : Request) (oracle : Nat → Dict → AttemptResult) (latency_ms : Nat)
    (hauth : check_auth master_key req.authorization = true)
    (hrate : (check_rate_limit st.rate_limits (api_key_of req.authorization) now).2 = true)
    (hready : st.ready = true) :
    (chat_completions master_key st now req oracle latency_ms).1 =
      Outcome.escaped "TypeError" := by
  unfold chat_completions
  simp [hauth, hrate, hready, planning_call_kwargs, get_ordered_deployments_keywords]

/-- Witness for C1 at a concrete accepted request. -/
theorem C1_planning_typeerror_escapes_witness :
    (check_auth none req0.authorization = true ∧
      (check_rate_limit (mkState [hfDep]).rate_limits (api_key_of req0.authorization) 100).2
        = true ∧
      (mkState [hfDep]).ready = true) ∧
    (chat_completions none (mkState [hfDep]) 100 req0 failOracle 5).1 =
      Outcome.escaped "TypeError" :=
  ⟨⟨by decide, by decide, by decide⟩,
    C1_planning_typeerror_escapes none (mkState [hfDep]) 100 req0 failOracle 5
      (by decide) (by decide) (by decide)⟩

/-- C2. The claim reads: exactly one `RequestRecord` is appended to the
metrics collector per inbound request. The code appends none: `main.py`
neither imports `app.analytics` nor calls `collector.record` on any path,
so the collector's records deque is unchanged by every request. -/
theorem C2_no_record_is_ever_appended (master_key : Option String) (st : ServerState)
    (now : Int) (req : Request) (oracle : Nat → Dict → AttemptResult) (latency_ms : Nat) :
    ((chat_completions master_key st now req oracle latency_ms).2).records = st.records := by
  by_cases h1 : check_auth master_key req.authorization = true
  · by_cases h2 : (check_rate_limit st.rate_limits (api_key_of req.authorization) now).2 = true
    · by_cases h3 : st.ready = true
      · simp [chat_completions, h1, h2, h3, apply_ite]
      · simp [chat_completions, h1, h2, h3]
    · simp [chat_completions, h1, h2]
  · simp [chat_completions, h1]

/-- C4. The claim reads: under policy `auto`, every `free-ollamafree`
deployment precedes every `internal` and `premium` deployment. The code
violates it: `_get_tier_order` lists only `free-hf, internal, premium`
for `auto` (`TIER_FREE_OLLAMAFREE` appears in no policy's order), so a
`free-ollamafree` deployment is appended only by the trailing non-tier
fallback, after every tier-ordered deployment — here the plan for a catalog
`[ofDep, intDep]` is `[intDep, ofDep]`, the internal deployment first. -/
theorem C4_ollamafree_ordered_last_not_second :
    ofDep.tier = TIER_FREE_OLLAMAFREE ∧
    intDep.tier = TIER_INTERNAL ∧
    TIER_FREE_OLLAMAFREE ∉ get_tier_order "auto" ∧
    deps_for (mkState [ofDep, intDep]).rm_router "rainymodel/auto" = [ofDep, intDep] ∧
    get_ordered_deployments (mkState [ofDep, intDep]).rm_router 1 "rainymodel/auto" "auto" =
      [intDep, ofDep] := by
  refine ⟨rfl, rfl, by decide, rfl, by decide⟩

/-- Headers of an HTTP outcome. -/
def headers_of : Outcome → List (String × String)
  | .response _ _ hs => hs
  | .streaming hs _ => hs
  | .escaped _ => []

/-- When every attempt up to the end of the plan raises, the loop falls
through to the 502 response and counts every deployment as attempted. -/
theorem fallback_loop_exhaust (body : Dict) (model : String) (is_stream : Bool)
    (oracle : Nat → Dict → AttemptResult) (lat : Nat) :
    ∀ (deps : List Deployment) (idx : Nat) (le : Option (String × String)),
      (∀ j p, j < deps.length → ∃ n m, oracle (idx + j) p = .exn n m) →
      ∃ msg, fallback_loop deps body model is_stream oracle lat idx le =
        (.response 502 (exhaust_body model msg) (exhaust_headers model lat),
          idx + deps.length) := by
  intro deps
  induction deps with
  | nil =>
    intro idx le _
    exact ⟨le.map Prod.snd, by simp [fallback_loop]⟩
  | cons dep rest ih =>
    intro idx le hfail
    obtain ⟨n, m, hnm⟩ :=
      hfail 0 (build_params dep.litellm_params body is_stream) (by simp)
    rw [Nat.add_zero] at hnm
    obtain ⟨msg, hmsg⟩ := ih (idx + 1) (some (n, m)) (fun j p hj => by
      have := hfail (j + 1) p (by simpa using Nat.succ_lt_succ hj)
      simpa [Nat.add_comm, Nat.add_assoc, Nat.add_left_comm] using this)
    refine ⟨msg, ?_⟩
    simp only [fallback_loop, hnm]
    rw [hmsg]
    congr 1
    simp [Nat.add_comm, Nat.add_assoc, Nat.add_left_comm]

/-- When the first `k` attempts raise and attempt `k` succeeds with a
streaming response, the loop returns that streaming response (whose frames
come from `_stream_chunks` on the successful deployment's route info) after
exactly `k + 1` attempts — later deployments are never attempted. -/
theorem fallback_loop_stream_success (body : Dict) (model : String)
    (oracle : Nat → Dict → AttemptResult) (lat : Nat) (chunks : List Dict)
    (err : Option String) :
    ∀ (deps : List Deployment) (k idx : Nat) (le : Option (String × String))
      (hk : k < deps.length),
      (∀ j p, j < k → ∃ n m, oracle (idx + j) p = .exn n m) →
      (∀ p, oracle (idx + k) p = .ok (.stream chunks err)) →
      ∃ hdrs, fallback_loop deps body model true oracle lat idx le =
        (Outcome.streaming hdrs
          (stream_chunks chunks err (deps.get ⟨k, hk⟩).route_info), idx + k + 1) := by
  intro deps
  induction deps with
  | nil => intro k idx le hk; exact absurd hk (by simp)
  | cons dep rest ih =>
    intro k idx le hk hfail hok
    match k with
    | 0 =>
      have h0 := hok (build_params dep.litellm_params body true)
      rw [Nat.add_zero] at h0
      exact ⟨success_headers dep.route_info lat (le.map Prod.fst),
        by simp [fallback_loop, h0]⟩
    | k' + 1 =>
      obtain ⟨n, m, hnm⟩ :=
        hfail 0 (build_params dep.litellm_params body true) (Nat.succ_pos k')
      rw [Nat.add_zero] at hnm
      have hk' : k' < rest.length := Nat.lt_of_succ_lt_succ hk
      obtain ⟨hdrs, hrec⟩ := ih k' (idx + 1) (some (n, m)) hk'
        (fun j p hj => by
          have := hfail (j + 1) p (Nat.succ_lt_succ hj)
          simpa [Nat.add_comm, Nat.add_assoc, Nat.add_left_comm] using this)
        (fun p => by
          have := hok p
          simpa [Nat.add_comm, Nat.add_assoc, Nat.add_left_comm] using this)
      refine ⟨hdrs, ?_⟩
      simp only [fallback_loop, hnm]
      rw [hrec]
      congr 2
      simp [Nat.add_comm, Nat.add_assoc, Nat.add_left_comm]

/-- The frames of the `try`/`except` body of `_stream_chunks`: one data
frame per chunk, then the single error frame when the iterator raised. -/
theorem stream_try_frames_eq (chunks : List Dict) (err : Option String) (upstream : String) :
    stream_try_frames chunks err upstream =
      chunks.map (fun c => "data: " ++ dumps (.obj c) ++ "\n\n") ++
        (err.map fun e =>
          "data: " ++ dumps (stream_error_json upstream e) ++ "\n\n").toList := by
  induction chunks with
  | nil => cases err <;> rfl
  | cons c rest ih => simp [stream_try_frames, ih]

/-- C7. For every streaming response, `_stream_chunks` emits one
`data: <json>` frame per upstream chunk; when the chunk iterator raises
after `k` chunks, exactly one `stream_error` frame follows the `k` chunk
frames; the last frame is always the `data: [DONE]` terminator; and a
streaming success ends the fallback loop at that deployment — the stream
error is reported inline, never by attempting a further deployment. -/
theorem C7_streaming_contract (chunks : List Dict) (err : Option String) (ri : RouteInfo)
    (deps : List Deployment) (body : Dict) (model : String)
    (oracle : Nat → Dict → AttemptResult) (lat k : Nat) (hk : k < deps.length)
    (hfail : ∀ j p, j < k → ∃ n m, oracle j p = .exn n m)
    (hok : ∀ p, oracle k p = .ok (.stream chunks err)) :
    stream_chunks chunks err ri =
      chunks.map (fun c => "data: " ++ dumps (.obj c) ++ "\n\n") ++
        (err.map fun e =>
          "data: " ++ dumps (stream_error_json ri.upstream e) ++ "\n\n").toList ++
        ["data: [DONE]\n\n"] ∧
    (stream_chunks chunks err ri).getLast? = some "data: [DONE]\n\n" ∧
    ∃ hdrs, fallback_loop deps body model true oracle lat =
      (Outcome.streaming hdrs
        (stream_chunks chunks err (deps.get ⟨k, hk⟩).route_info), k + 1) := by
  refine ⟨?_, ?_, ?_⟩
  · rw [stream_chunks, stream_try_frames_eq, List.append_assoc]
  · rw [stream_chunks]
    exact List.getLast?_concat _
  · have := fallback_loop_stream_success body model oracle lat chunks err deps k 0 none hk
      (fun j p hj => by simpa using hfail j p hj)
      (fun p => by simpa using hok p)
    simpa using this

/-- Witness for C7: one chunk, then the iterator raises `APIError`. -/
theorem C7_streaming_contract_witness :
    ((0 : Nat) < ([hfDep] : List Deployment).length ∧
      (∀ j (p : Dict), j < 0 → ∃ n m, failOracle j p = .exn n m) ∧
      (∀ p : Dict, (fun (_ : Nat) (_ : Dict) =>
          AttemptResult.ok (.stream [[("delta", JVal.str "he")]] (some "boom"))) 0 p =
        .ok (.stream [[("delta", JVal.str "he")]] (some "boom")))) ∧
    (stream_chunks [[("delta", JVal.str "he")]] (some "boom") hfDep.route_info =
      [[("delta", JVal.str "he")]].map (fun c => "data: " ++ dumps (.obj c) ++ "\n\n") ++
        ((some "boom").map fun e =>
          "data: " ++ dumps (stream_error_json hfDep.route_info.upstream e) ++ "\n\n").toList ++
        ["data: [DONE]\n\n"] ∧
      (stream_chunks [[("delta", JVal.str "he")]] (some "boom") hfDep.route_info).getLast? =
        some "data: [DONE]\n\n" ∧
      ∃ hdrs, fallback_loop [hfDep] [] "rainymodel/auto" true
          (fun _ _ => .ok (.stream [[("delta", JVal.str "he")]] (some "boom"))) 5 =
        (Outcome.streaming hdrs
          (stream_chunks [[("delta", JVal.str "he")]] (some "boom")
            (([hfDep] : List Deployment).get ⟨0, by decide⟩).route_info), 0 + 1)) :=
  ⟨⟨by decide, fun _ _ hj => absurd hj (by simp), fun _ => rfl⟩,
    C7_streaming_contract [[("delta", JVal.str "he")]] (some "boom") hfDep.route_info
      [hfDep] [] "rainymodel/auto"
      (fun _ _ => .ok (.stream [[("delta", JVal.str "he")]] (some "boom"))) 5 0
      (by decide) (fun _ _ hj => absurd hj (by simp)) (fun _ => rfl)⟩

/-- C8 counterexample. The claim asserts the exhaustion response carries an
`x-rainymodel-tried` header; the code's 502 response (main.py lines
410–426) carries only route, upstream, model and latency — `tried` is
absent. -/
theorem C8_tried_header_absent :
    status_of (fallback_loop [hfDep] [] "rainymodel/auto" false failOracle 7).1 =
      some 502 ∧
    "x-rainymodel-tried" ∉
      (headers_of (fallback_loop [hfDep] [] "rainymodel/auto" false failOracle 7).1).map
        Prod.fst := by
  decide

/-- C8 (amended: without the `x-rainymodel-tried` header). When the
fallback loop exhausts every planned deployment without a success, the
response has status 502, its body's `error.type` is `"upstream_error"`,
and its headers are exactly `x-rainymodel-route = "error"`,
`x-rainymodel-upstream = "none"`, `x-rainymodel-model = alias` and
`x-rainymodel-latency-ms`. -/
theorem C8_exhaustion_response (deps : List Deployment) (body : Dict) (model : String)
    (is_stream : Bool) (oracle : Nat → Dict → AttemptResult) (lat : Nat)
    (hfail : ∀ j p, j < deps.length → ∃ n m, oracle j p = .exn n m) :
    ∃ msg, (fallback_loop deps body model is_stream oracle lat).1 =
      .response 502
        (.obj [("error", .obj [("message", .str msg), ("type", .str "upstream_error")])])
        [("x-rainymodel-route", "error"), ("x-rainymodel-upstream", "none"),
         ("x-rainymodel-model", model), ("x-rainymodel-latency-ms", toString lat)] := by
  obtain ⟨msgOpt, heq⟩ := fallback_loop_exhaust body model is_stream oracle lat deps 0 none
    (fun j p hj => by simpa using hfail j p hj)
  have h1 : (fallback_loop deps body model is_stream oracle lat).1 =
      .response 502 (exhaust_body model msgOpt) (exhaust_headers model lat) := by
    rw [show fallback_loop deps body model is_stream oracle lat =
        fallback_loop deps body model is_stream oracle lat 0 none from rfl, heq]
  cases msgOpt with
  | none => exact ⟨"No deployments found for " ++ model, h1⟩
  | some e => exact ⟨"All upstreams failed for " ++ model ++ ": " ++ e, h1⟩

/-- Witness for C8 (amended) at a one-deployment plan whose attempt fails. -/
theorem C8_exhaustion_response_witness :
    (∀ j p, j < ([hfDep] : List Deployment).length → ∃ n m, failOracle j p = .exn n m) ∧
    ∃ msg, (fallback_loop [hfDep] [] "rainymodel/auto" false failOracle 7).1 =
      .response 502
        (.obj [("error", .obj [("message", .str msg), ("type", .str "upstream_error")])])
        [("x-rainymodel-route", "error"), ("x-rainymodel-upstream", "none"),
         ("x-rainymodel-model", "rainymodel/auto"), ("x-rainymodel-latency-ms", toString 7)] :=
  ⟨fun _ _ _ => ⟨"APIError", "boom", rfl⟩,
    C8_exhaustion_response [hfDep] [] "rainymodel/auto" false failOracle 7
      (fun _ _ _ => ⟨"APIError", "boom", rfl⟩)⟩

/-! ## Lemmas on the two planning passes -/

/-- Membership after the tier pass's inner loop: the accumulator's members
plus the deployments of the requested tier. -/
theorem add_tier_mem (tier : String) :
    ∀ (deps res : List Deployment) (x : Deployment),
      x ∈ add_tier deps tier res ↔ x ∈ res ∨ (x ∈ deps ∧ x.tier = tier) := by
  intro deps
  induction deps with
  | nil => intro res x; simp [add_tier]
  | cons d rest ih =>
    intro res x
    rw [show add_tier (d :: rest) tier res =
      add_tier rest tier (if d.tier = tier ∧ d ∉ res then res ++ [d] else res) from rfl]
    rw [ih]
    by_cases hd : d.tier = tier ∧ d ∉ res
    · rw [if_pos hd]
      simp only [List.mem_append, List.mem_cons, List.not_mem_nil, or_false]
      constructor
      · rintro ((hx | rfl) | ⟨hx, ht⟩)
        · exact Or.inl hx
        · exact Or.inr ⟨Or.inl rfl, hd.1⟩
        · exact Or.inr ⟨Or.inr hx, ht⟩
      · rintro (hx | ⟨rfl | hx, ht⟩)
        · exact Or.inl (Or.inl hx)
        · exact Or.inl (Or.inr rfl)
        · exact Or.inr ⟨hx, ht⟩
    · rw [if_neg hd]
      simp only [List.mem_cons]
      constructor
      · rintro (hx | ⟨hx, ht⟩)
        · exact Or.inl hx
        · exact Or.inr ⟨Or.inr hx, ht⟩
      · rintro (hx | ⟨rfl | hx, ht⟩)
        · exact Or.inl hx
        · rcases not_and_or.mp hd with h | h
          · exact absurd ht h
          · exact Or.inl (not_not.mp h)
        · exact Or.inr ⟨hx, ht⟩

/-- The inner tier loop never introduces a duplicate. -/
theorem add_tier_nodup (tier : String) :
    ∀ (deps res : List Deployment), res.Nodup → (add_tier deps tier res).Nodup := by
  intro deps
  induction deps with
  | nil => intro res h; simpa [add_tier] using h
  | cons d rest ih =>
    intro res h
    rw [show add_tier (d :: rest) tier res =
      add_tier rest tier (if d.tier = tier ∧ d ∉ res then res ++ [d] else res) from rfl]
    apply ih
    by_cases hd : d.tier = tier ∧ d ∉ res
    · rw [if_pos hd]
      exact List.Nodup.append h (List.nodup_singleton d) (by simp [hd.2])
    · rwa [if_neg hd]

/-- The inner tier loop only ever appends, so the accumulator stays a
prefix, and everything appended is a deployment of the requested tier. -/
theorem add_tier_prefix (tier : String) :
    ∀ (deps res : List Deployment), ∃ t, add_tier deps tier res = res ++ t ∧
      ∀ x ∈ t, x ∈ deps ∧ x.tier = tier := by
  intro deps
  induction deps with
  | nil => intro res; exact ⟨[], by simp [add_tier]⟩
  | cons d rest ih =>
    intro res
    rw [show add_tier (d :: rest) tier res =
      add_tier rest tier (if d.tier = tier ∧ d ∉ res then res ++ [d] else res) from rfl]
    by_cases hd : d.tier = tier ∧ d ∉ res
    · rw [if_pos hd]
      obtain ⟨t, ht, hall⟩ := ih (res ++ [d])
      refine ⟨d :: t, by rw [ht, List.append_assoc]; rfl, ?_⟩
      intro x hx
      rcases List.mem_cons.mp hx with rfl | hx
      · exact ⟨List.mem_cons_self x rest, hd.1⟩
      · exact ⟨List.mem_cons_of_mem _ (hall x hx).1, (hall x hx).2⟩
    · rw [if_neg hd]
      obtain ⟨t, ht, hall⟩ := ih res
      exact ⟨t, ht, fun x hx => ⟨List.mem_cons_of_mem _ (hall x hx).1, (hall x hx).2⟩⟩

/-- Membership after the non-tier fallback: the accumulator's members plus
everything in the catalog sequence. -/
theorem non_tier_fallback_mem :
    ∀ (deps res : List Deployment) (x : Deployment),
      x ∈ non_tier_fallback deps res ↔ x ∈ res ∨ x ∈ deps := by
  intro deps
  induction deps with
  | nil => intro res x; simp [non_tier_fallback]
  | cons d rest ih =>
    intro res x
    rw [show non_tier_fallback (d :: rest) res =
      non_tier_fallback rest (if d ∉ res then res ++ [d] else res) from rfl]
    rw [ih]
    by_cases hd : d ∉ res
    · rw [if_pos hd]
      simp only [List.mem_append, List.mem_singleton, List.mem_cons]
      tauto
    · rw [if_neg hd]
      simp only [List.mem_cons]
      have hd' : d ∈ res := not_not.mp hd
      constructor
      · tauto
      · rintro (hx | rfl | hx) <;> tauto

/-- The non-tier fallback never introduces a duplicate. -/
theorem non_tier_fallback_nodup :
    ∀ (deps res : List Deployment), res.Nodup → (non_tier_fallback deps res).Nodup := by
  intro deps
  induction deps with
  | nil => intro res h; simpa [non_tier_fallback] using h
  | cons d rest ih =>
    intro res h
    rw [show non_tier_fallback (d :: rest) res =
      non_tier_fallback rest (if d ∉ res then res ++ [d] else res) from rfl]
    apply ih
    by_cases hd : d ∉ res
    · rw [if_pos hd]
      exact List.Nodup.append h (List.nodup_singleton d) (by simp [hd])
    · rwa [if_neg hd]

/-- The non-tier fallback only ever appends to the accumulator. -/
theorem non_tier_fallback_prefix :
    ∀ (deps res : List Deployment), ∃ t, non_tier_fallback deps res = res ++ t ∧
      ∀ x ∈ t, x ∈ deps := by
  intro deps
  induction deps with
  | nil => intro res; exact ⟨[], by simp [non_tier_fallback]⟩
  | cons d rest ih =>
    intro res
    rw [show non_tier_fallback (d :: rest) res =
      non_tier_fallback rest (if d ∉ res then res ++ [d] else res) from rfl]
    by_cases hd : d ∉ res
    · rw [if_pos hd]
      obtain ⟨t, ht, hall⟩ := ih (res ++ [d])
      refine ⟨d :: t, by rw [ht, List.append_assoc]; rfl, ?_⟩
      intro x hx
      rcases List.mem_cons.mp hx with rfl | hx
      · exact List.mem_cons_self x rest
      · exact List.mem_cons_of_mem _ (hall x hx)
    · rw [if_neg hd]
      obtain ⟨t, ht, hall⟩ := ih res
      exact ⟨t, ht, fun x hx => List.mem_cons_of_mem _ (hall x hx)⟩

/-- Membership in the tier-ordered pass: a deployment of the alias whose
tier occurs in the policy's tier order and is not the gated `free-hf`. -/
theorem tier_fold_mem (r : Router) (now : Int) (deps : List Deployment) :
    ∀ (order : List String) (res : List Deployment) (x : Deployment),
      x ∈ order.foldl (fun res tier =>
          if tier = TIER_FREE_HF ∧ ¬ is_hf_available r now then res
          else add_tier deps tier res) res ↔
        x ∈ res ∨ (x ∈ deps ∧ x.tier ∈ order ∧
          ¬(x.tier = TIER_FREE_HF ∧ ¬ is_hf_available r now)) := by
  intro order
  induction order with
  | nil => intro res x; simp
  | cons tier rest ih =>
    intro res x
    rw [List.foldl_cons, ih]
    by_cases hskip : tier = TIER_FREE_HF ∧ ¬ is_hf_available r now
    · rw [if_pos hskip]
      simp only [List.mem_cons]
      constructor
      · rintro (hx | ⟨hd, ht, hc⟩)
        · exact Or.inl hx
        · exact Or.inr ⟨hd, Or.inr ht, hc⟩
      · rintro (hx | ⟨hd, rfl | ht, hc⟩)
        · exact Or.inl hx
        · exact absurd hskip hc
        · exact Or.inr ⟨hd, ht, hc⟩
    · rw [if_neg hskip, add_tier_mem]
      simp only [List.mem_cons]
      constructor
      · rintro ((hx | ⟨hd, ht⟩) | ⟨hd, ht, hc⟩)
        · exact Or.inl hx
        · exact Or.inr ⟨hd, Or.inl ht, ht ▸ hskip⟩
        · exact Or.inr ⟨hd, Or.inr ht, hc⟩
      · rintro (hx | ⟨hd, rfl | ht, hc⟩)
        · exact Or.inl (Or.inl hx)
        · exact Or.inl (Or.inr ⟨hd, rfl⟩)
        · exact Or.inr ⟨hd, ht, hc⟩

/-- The tier-ordered pass keeps the accumulator duplicate-free. -/
theorem tier_fold_nodup (r : Router) (now : Int) (deps : List Deployment) :
    ∀ (order : List String) (res : List Deployment), res.Nodup →
      (order.foldl (fun res tier =>
        if tier = TIER_FREE_HF ∧ ¬ is_hf_available r now then res
        else add_tier deps tier res) res).Nodup := by
  intro order
  induction order with
  | nil => intro res h; simpa using h
  | cons tier rest ih =>
    intro res h
    rw [List.foldl_cons]
    apply ih
    by_cases hskip : tier = TIER_FREE_HF ∧ ¬ is_hf_available r now
    · rwa [if_pos hskip]
    · rw [if_neg hskip]
      exact add_tier_nodup tier deps res h

/-- `tier_pass` membership (the pass starts from the empty result). -/
theorem tier_pass_mem (r : Router) (now : Int) (deps : List Deployment)
    (order : List String) (x : Deployment) :
    x ∈ tier_pass r now deps order ↔
      x ∈ deps ∧ x.tier ∈ order ∧
        ¬(x.tier = TIER_FREE_HF ∧ ¬ is_hf_available r now) := by
  have := tier_fold_mem r now deps order [] x
  simpa [tier_pass] using this

/-- The tier pass yields no duplicates. -/
theorem tier_pass_nodup (r : Router) (now : Int) (deps : List Deployment)
    (order : List String) : (tier_pass r now deps order).Nodup :=
  tier_fold_nodup r now deps order [] List.nodup_nil

/-- Everything the plan returns is a deployment of the alias, and
conversely. -/
theorem plan_mem (r : Router) (now : Int) (model policy : String) (x : Deployment) :
    x ∈ get_ordered_deployments r now model policy ↔ x ∈ deps_for r model := by
  unfold get_ordered_deployments
  by_cases he : (deps_for r model).isEmpty
  · rw [if_pos he]
    have : deps_for r model = [] := List.isEmpty_iff.mp he
    simp [this]
  · rw [if_neg he, non_tier_fallback_mem]
    constructor
    · rintro (hx | hx)
      · exact ((tier_pass_mem r now _ _ x).mp hx).1
      · exact hx
    · exact Or.inr

/-- The plan never contains a duplicate. -/
theorem plan_nodup (r : Router) (now : Int) (model policy : String) :
    (get_ordered_deployments r now model policy).Nodup := by
  unfold get_ordered_deployments
  by_cases he : (deps_for r model).isEmpty
  · rw [if_pos he]; exact List.nodup_nil
  · rw [if_neg he]
    exact non_tier_fallback_nodup _ _ (tier_pass_nodup r now _ _)

/-- C3 counterexample. The claim asserts the plan is a permutation of the
catalog sequence for every alias. With a catalog listing the same
deployment dict twice (two identical `model_list` entries), the `dep not
in result` membership test (Python `==` on dicts) drops the second copy:
the catalog holds two deployments, the plan only one. -/
theorem C3_duplicate_deployment_dropped :
    deps_for (mkState [hfDep, hfDep]).rm_router "rainymodel/auto" = [hfDep, hfDep] ∧
    get_ordered_deployments (mkState [hfDep, hfDep]).rm_router 1 "rainymodel/auto" "auto" =
      [hfDep] ∧
    ¬ (get_ordered_deployments (mkState [hfDep, hfDep]).rm_router 1 "rainymodel/auto"
        "auto").Perm
      (deps_for (mkState [hfDep, hfDep]).rm_router "rainymodel/auto") := by
  refine ⟨rfl, by decide, fun hp => ?_⟩
  have h1 := hp.length_eq
  rw [show get_ordered_deployments (mkState [hfDep, hfDep]).rm_router 1 "rainymodel/auto"
      "auto" = [hfDep] by decide] at h1
  rw [show deps_for (mkState [hfDep, hfDep]).rm_router "rainymodel/auto" =
      [hfDep, hfDep] from rfl] at h1
  simp at h1

/-- C3 (amended: for every alias whose catalog sequence holds no duplicate
deployment). `get_ordered_deployments(alias, policy)` is a permutation of
the catalog's deployment sequence for the alias — nothing dropped, nothing
repeated — and an alias with no deployments yields the empty plan. -/
theorem C3_plan_is_permutation (r : Router) (now : Int) (model policy : String)
    (h : (deps_for r model).Nodup) :
    (get_ordered_deployments r now model policy).Perm (deps_for r model) :=
  (List.perm_ext_iff_of_nodup (plan_nodup r now model policy) h).mpr
    (fun x => plan_mem r now model policy x)

/-- Witness for C3 (amended) on a duplicate-free two-deployment catalog. -/
theorem C3_plan_is_permutation_witness :
    (deps_for (mkState [hfDep, intDep]).rm_router "rainymodel/auto").Nodup ∧
    (get_ordered_deployments (mkState [hfDep, intDep]).rm_router 1 "rainymodel/auto"
      "auto").Perm (deps_for (mkState [hfDep, intDep]).rm_router "rainymodel/auto") :=
  ⟨by decide,
    C3_plan_is_permutation (mkState [hfDep, intDep]).rm_router 1 "rainymodel/auto" "auto"
      (by decide)⟩

/-- Planning over an alias with no deployments places nothing in the tier
pass. -/
theorem tier_pass_nil (r : Router) (now : Int) (order : List String) :
    tier_pass r now [] order = [] := by
  rw [List.eq_nil_iff_forall_not_mem]
  intro x hx
  exact absurd ((tier_pass_mem r now [] order x).mp hx).1 (List.not_mem_nil x)

/-- Every policy's tier order contains `internal` and `premium`. -/
theorem internal_premium_in_order (policy : String) :
    TIER_INTERNAL ∈ get_tier_order policy ∧ TIER_PREMIUM ∈ get_tier_order policy := by
  unfold get_tier_order
  split_ifs <;> exact ⟨by decide, by decide⟩

/-- A router whose HF-credit gate is active until instant 1000, with a
`free-hf` deployment listed before a `free-ollamafree` one. -/
def gatedRouter : Router :=
  { deployments := [("rainymodel/chat", [hfDep, ofDep])]
    hf_credits_exhausted_until := 1000 }

/-- C5 counterexample. The claim asserts that while the gate is active,
deployments of any other tier are placed first and the `free-hf`
deployments appended only at the end. With catalog `[free-hf,
free-ollamafree]` and the gate active, the tier pass places nothing
(`free-ollamafree` occurs in no tier order), so the non-tier fallback
emits the catalog in order and the *gated* `free-hf` deployment comes
first, ahead of the other-tier deployment. -/
theorem C5_gated_hf_still_first :
    (500 : Int) < gatedRouter.hf_credits_exhausted_until ∧
    hfDep.tier = TIER_FREE_HF ∧
    ofDep.tier ≠ TIER_FREE_HF ∧
    ofDep ∈ deps_for gatedRouter "rainymodel/chat" ∧
    get_ordered_deployments gatedRouter 500 "rainymodel/chat" "auto" = [hfDep, ofDep] := by
  decide

/-- C5 (amended: "other tier" restricted to tiers of the policy's tier
order). While `now < hf_blocked_until`, `free-hf` is suppressed from the
tier-ordered pass: the pass places no `free-hf` deployment, it places every
`internal` and `premium` deployment of the alias, and the plan is the tier
pass followed by the non-tier fallback's appends — so gated `free-hf`
deployments (like any deployment of a tier outside the order) reach the
plan only through the trailing fallback, after every tier-ordered
deployment. `mark_hf_credits_exhausted(duration)` sets the gate to
`now + duration`, with default duration 86400 s (24 h). -/
theorem C5_hf_gate (r : Router) (now : Int) (al policy : String)
    (h : now < r.hf_credits_exhausted_until) :
    (∀ dur : Int, mark_hf_credits_exhausted r now dur =
      { r with hf_credits_exhausted_until := now + dur }) ∧
    mark_hf_credits_exhausted r now =
      { r with hf_credits_exhausted_until := now + 86400 } ∧
    (∀ d ∈ tier_pass r now (deps_for r al) (get_tier_order policy),
      d.tier ≠ TIER_FREE_HF) ∧
    (∀ d ∈ deps_for r al, (d.tier = TIER_INTERNAL ∨ d.tier = TIER_PREMIUM) →
      d ∈ tier_pass r now (deps_for r al) (get_tier_order policy)) ∧
    (∃ t, get_ordered_deployments r now al policy =
      tier_pass r now (deps_for r al) (get_tier_order policy) ++ t ∧
      ∀ x ∈ t, x ∈ deps_for r al) := by
  have hgate : is_hf_available r now = false := by
    simp only [is_hf_available, decide_eq_false_iff_not]
    omega
  refine ⟨fun _ => rfl, rfl, ?_, ?_, ?_⟩
  · intro d hd hdt
    obtain ⟨_, _, hc⟩ := (tier_pass_mem r now _ _ d).mp hd
    exact hc ⟨hdt, by simp [hgate]⟩
  · intro d hd ht
    refine (tier_pass_mem r now _ _ d).mpr ⟨hd, ?_, ?_⟩
    · rcases ht with h1 | h1 <;> rw [h1]
      · exact (internal_premium_in_order policy).1
      · exact (internal_premium_in_order policy).2
    · rintro ⟨heq, _⟩
      rcases ht with h1 | h1 <;> rw [h1] at heq <;> exact absurd heq (by decide)
  · by_cases he : (deps_for r al).isEmpty
    · have hnil : deps_for r al = [] := List.isEmpty_iff.mp he
      refine ⟨[], ?_, by simp⟩
      unfold get_ordered_deployments
      rw [if_pos he, hnil, tier_pass_nil]
      rfl
    · obtain ⟨t, ht, hall⟩ := non_tier_fallback_prefix (deps_for r al)
        (tier_pass r now (deps_for r al) (get_tier_order policy))
      refine ⟨t, ?_, hall⟩
      unfold get_ordered_deployments
      rw [if_neg he]
      exact ht

/-- Witness for C5 (amended) on the gated two-deployment router. -/
theorem C5_hf_gate_witness :
    ((500 : Int) < gatedRouter.hf_credits_exhausted_until) ∧
    ((∀ dur : Int, mark_hf_credits_exhausted gatedRouter 500 dur =
      { gatedRouter with hf_credits_exhausted_until := 500 + dur }) ∧
    mark_hf_credits_exhausted gatedRouter 500 =
      { gatedRouter with hf_credits_exhausted_until := 500 + 86400 } ∧
    (∀ d ∈ tier_pass gatedRouter 500 (deps_for gatedRouter "rainymodel/chat")
        (get_tier_order "auto"), d.tier ≠ TIER_FREE_HF) ∧
    (∀ d ∈ deps_for gatedRouter "rainymodel/chat",
      (d.tier = TIER_INTERNAL ∨ d.tier = TIER_PREMIUM) →
      d ∈ tier_pass gatedRouter 500 (deps_for gatedRouter "rainymodel/chat")
        (get_tier_order "auto")) ∧
    (∃ t, get_ordered_deployments gatedRouter 500 "rainymodel/chat" "auto" =
      tier_pass gatedRouter 500 (deps_for gatedRouter "rainymodel/chat")
        (get_tier_order "auto") ++ t ∧
      ∀ x ∈ t, x ∈ deps_for gatedRouter "rainymodel/chat")) :=
  ⟨by decide, C5_hf_gate gatedRouter 500 "rainymodel/chat" "auto" (by decide)⟩

/-! ## Dict lemmas and the parameter-passthrough claim -/

/-- Reading back the key just written. -/
theorem dget_dset_self (d : Dict) (k : String) (v : JVal) :
    dget (dset d k v) k = some v := by
  induction d with
  | nil => simp [dset, dget]
  | cons kv rest ih =>
    obtain ⟨k1, v1⟩ := kv
    by_cases h : k1 = k
    · simp [dset, dget, h]
    · simp [dset, dget, h, ih]

/-- Writing one key leaves every other key unchanged. -/
theorem dget_dset_ne (d : Dict) (k k' : String) (v : JVal) (h : k' ≠ k) :
    dget (dset d k v) k' = dget d k' := by
  have hkk : ¬ k = k' := fun e => h e.symm
  induction d with
  | nil => simp [dset, dget, hkk]
  | cons kv rest ih =>
    obtain ⟨k1, v1⟩ := kv
    by_cases h1 : k1 = k
    · subst h1
      simp [dset, dget, hkk]
    · simp [dset, dget, h1, ih]

/-- `body.get(key) is not None`: the key is present with a non-null value
(JSON `null` parses to Python `None`). -/
def present_non_null (body : Dict) (k : String) : Bool :=
  match dget body k with
  | some v => if v = JVal.null then false else true
  | none => false

/-- Effect of the passthrough copy loop on an arbitrary key: keys of the
copied set that are present and non-null in the body read back from the
body, every other key is untouched. -/
theorem dget_copy_passthrough (body : Dict) :
    ∀ (keys : List String) (params : Dict) (k : String),
      dget (copy_passthrough body keys params) k =
        if k ∈ keys ∧ present_non_null body k = true then dget body k
        else dget params k := by
  intro keys
  induction keys with
  | nil => intro params k; simp [copy_passthrough]
  | cons key rest ih =>
    intro params k
    rw [show copy_passthrough body (key :: rest) params =
      copy_passthrough body rest
        (match dget body key with
         | some v => if v = JVal.null then params else dset params key v
         | none => params) from rfl]
    rw [ih]
    by_cases hk : k = key
    · subst hk
      cases hv : dget body k with
      | none =>
        have hp : present_non_null body k = false := by simp [present_non_null, hv]
        simp [hp]
      | some v =>
        by_cases hnull : v = JVal.null
        · have hp : present_non_null body k = false := by
            simp [present_non_null, hv, hnull]
          simp [hp, hnull]
        · have hp : present_non_null body k = true := by
            simp [present_non_null, hv, hnull]
          by_cases hr : k ∈ rest
          · simp [hr, hp]
          · simp [hr, hp, hnull, dget_dset_self]
    · have hstep : dget
          (match dget body key with
           | some v => if v = JVal.null then params else dset params key v
           | none => params) k = dget params k := by
        cases hv : dget body key with
        | none => rfl
        | some v =>
          by_cases hnull : v = JVal.null
          · simp [hnull]
          · simp [hnull, dget_dset_ne params key k v hk]
      rw [hstep]
      by_cases hr : k ∈ rest ∧ present_non_null body k = true
      · rw [if_pos hr, if_pos ⟨List.mem_cons_of_mem _ hr.1, hr.2⟩]
      · rw [if_neg hr, if_neg (fun hc => hr ⟨(List.mem_cons.mp hc.1).resolve_left hk, hc.2⟩)]

/-- C6. For each attempted deployment, the upstream parameter bag equals a
shallow copy of the deployment's `litellm_params` in which: `messages` is
overwritten from the request body (`body.get("messages", [])`); `stream`
is set to `true` exactly when the request is streaming (otherwise the
deployment's own value, if any, is untouched); each key of the closed
passthrough set is copied from the body iff it is present and non-null
there; and every other key — in particular every other body key — reads
back from the deployment's params, so no other body key propagates. -/
theorem C6_param_bag_characterisation (dep_params body : Dict) (is_stream : Bool)
    (k : String) :
    dget (build_params dep_params body is_stream) k =
      if k = "messages" then some ((dget body "messages").getD (JVal.arr []))
      else if is_stream = true ∧ k = "stream" then some (JVal.bool true)
      else if k ∈ PASSTHROUGH_KEYS ∧ present_non_null body k = true then dget body k
      else dget dep_params k := by
  unfold build_params
  rw [dget_copy_passthrough]
  by_cases hm : k = "messages"
  · subst hm
    have h1 : "messages" ∉ PASSTHROUGH_KEYS := by decide
    rw [if_neg (fun hc => h1 hc.1), if_pos rfl]
    cases is_stream with
    | false => simpa using dget_dset_self dep_params "messages" _
    | true =>
      rw [if_pos rfl]
      rw [dget_dset_ne _ "stream" "messages" _ (by decide)]
      exact dget_dset_self dep_params "messages" _
  · by_cases hs : is_stream = true ∧ k = "stream"
    · obtain ⟨hst, hk⟩ := hs
      subst hk
      subst hst
      have h2 : "stream" ∉ PASSTHROUGH_KEYS := by decide
      rw [if_neg (fun hc => h2 hc.1), if_neg hm,
        if_pos (show (true = true ∧ "stream" = "stream") from ⟨rfl, rfl⟩)]
      exact dget_dset_self _ "stream" _
    · rw [if_neg hm, if_neg hs]
      by_cases hp : k ∈ PASSTHROUGH_KEYS ∧ present_non_null body k = true
      · rw [if_pos hp, if_pos hp]
      · rw [if_neg hp, if_neg hp]
        cases his : is_stream with
        | false =>
          simp only [Bool.false_eq_true, if_false]
          exact dget_dset_ne _ "messages" k _ hm
        | true =>
          have hks : k ≠ "stream" := fun hc => hs ⟨his, hc⟩
          rw [if_pos (show true = true from rfl)]
          rw [dget_dset_ne _ "stream" k _ hks]
          exact dget_dset_ne _ "messages" k _ hm

/-! ## Metrics-overview lemmas -/

/-- Index monotonicity of `getD` on a sorted list. -/
theorem sorted_getD_le (l : List Nat) (hs : l.Sorted (· ≤ ·)) (i j : Nat)
    (hij : i ≤ j) (hj : j < l.length) : l.getD i 0 ≤ l.getD j 0 := by
  have hi : i < l.length := Nat.lt_of_le_of_lt hij hj
  rw [List.getD_eq_get _ _ hi, List.getD_eq_get _ _ hj]
  exact hs.rel_get_of_le (by exact hij)

/-- In a sorted list, the head bounds every member from below. -/
theorem sorted_head_le_mem (l : List Nat) (hs : l.Sorted (· ≤ ·)) (x : Nat)
    (hx : x ∈ l) : l.getD 0 0 ≤ x := by
  obtain ⟨i, hi⟩ := List.mem_iff_get.mp hx
  calc l.getD 0 0 ≤ l.getD i.val 0 := sorted_getD_le l hs 0 i.val (Nat.zero_le _) i.isLt
    _ = x := by rw [List.getD_eq_get _ _ i.isLt, hi]

/-- In a sorted list, the last element bounds every member from above. -/
theorem sorted_mem_le_last (l : List Nat) (hs : l.Sorted (· ≤ ·)) (x : Nat)
    (hx : x ∈ l) : x ≤ l.getD (l.length - 1) 0 := by
  obtain ⟨i, hi⟩ := List.mem_iff_get.mp hx
  have hpos : 0 < l.length := List.length_pos.mpr (List.ne_nil_of_mem hx)
  calc x = l.getD i.val 0 := by rw [List.getD_eq_get _ _ i.isLt, hi]
    _ ≤ l.getD (l.length - 1) 0 :=
      sorted_getD_le l hs i.val (l.length - 1) (Nat.le_sub_one_of_lt i.isLt)
        (Nat.sub_lt hpos Nat.one_pos)

/-- `lats[-1]` as a `getD` at the last index. -/
theorem getLastD_eq_getD (l : List Nat) (h : l ≠ []) :
    (l.getLast?).getD 0 = l.getD (l.length - 1) 0 := by
  have hlt : l.length - 1 < l.length := Nat.sub_lt (List.length_pos.mpr h) Nat.one_pos
  rw [List.getLast?_eq_getLast_of_ne_nil h, Option.getD_some,
    List.getD_eq_getElem _ _ hlt]
  exact List.getLast_eq_getElem l h

/-- A uniform lower bound on a list of naturals bounds the sum from below. -/
theorem length_mul_le_sum (l : List Nat) (m : Nat) (hm : ∀ x ∈ l, m ≤ x) :
    l.length * m ≤ l.sum := by
  induction l with
  | nil => simp
  | cons a t ih =>
    have h1 := ih (fun x hx => hm x (List.mem_cons_of_mem _ hx))
    have h2 := hm a (List.mem_cons_self a t)
    simp only [List.length_cons, List.sum_cons, Nat.succ_mul]
    omega

/-- A uniform upper bound on a list of naturals bounds the sum from above. -/
theorem sum_le_length_mul (l : List Nat) (m : Nat) (hm : ∀ x ∈ l, x ≤ m) :
    l.sum ≤ l.length * m := by
  induction l with
  | nil => simp
  | cons a t ih =>
    have h1 := ih (fun x hx => hm x (List.mem_cons_of_mem _ hx))
    have h2 := hm a (List.mem_cons_self a t)
    simp only [List.length_cons, List.sum_cons, Nat.succ_mul]
    omega

/-- A successful request record with the given latency. -/
def okRec (lat : Nat) : RequestRecord :=
  { timestamp := 0
    model_alias := "rainymodel/auto"
    upstream := "hf"
    route := "free"
    actual_model := "huggingface/HuggingFaceH4/zephyr-7b-beta"
    policy := "auto"
    latency_ms := lat
    success := true
    status_code := 200
    is_stream := false }

/-- A heavy-tailed snapshot: twenty latencies of 0 ms and one of 21000 ms. -/
def heavyTail : List RequestRecord := List.replicate 20 (okRec 0) ++ [okRec 21000]

/-- C9 counterexample. The claim asserts the chain `min ≤ avg ≤ p95 ≤ p99 ≤
max`. On a 21-record snapshot with twenty 0 ms latencies and one 21000 ms
latency, `avg_ms = floor(21000/21) = 1000` while `p95_ms` reads the sorted
list at index `min(int(21·0.95), 20) = 19`, which is 0: the mean exceeds
the 95th percentile. -/
theorem C9_avg_exceeds_p95 :
    (get_overview heavyTail 0 0).total = 21 ∧
    (get_overview heavyTail 0 0).avg_ms = 1000 ∧
    (get_overview heavyTail 0 0).p95_ms = 0 ∧
    ¬ (get_overview heavyTail 0 0).avg_ms ≤ (get_overview heavyTail 0 0).p95_ms := by
  decide

/-- C9 (amended: the mean is bracketed by min and max but not by the
percentiles). For every snapshot, `get_overview` returns `total` equal to
the snapshot size, `ok + err = total`, and latency statistics satisfying
`min_ms ≤ avg_ms ≤ max_ms` and `min_ms ≤ p95_ms ≤ p99_ms ≤ max_ms`, the
percentiles reading the sorted latency list at index
`min(floor(len·p), len−1)`. -/
theorem C9_overview_invariants (recs : List RequestRecord) (now start_time : Int) :
    (get_overview recs now start_time).total = recs.length ∧
    (get_overview recs now start_time).ok + (get_overview recs now start_time).err =
      (get_overview recs now start_time).total ∧
    (get_overview recs now start_time).min_ms ≤ (get_overview recs now start_time).avg_ms ∧
    (get_overview recs now start_time).avg_ms ≤ (get_overview recs now start_time).max_ms ∧
    (get_overview recs now start_time).min_ms ≤ (get_overview recs now start_time).p95_ms ∧
    (get_overview recs now start_time).p95_ms ≤ (get_overview recs now start_time).p99_ms ∧
    (get_overview recs now start_time).p99_ms ≤ (get_overview recs now start_time).max_ms
    := by
  by_cases he : recs.isEmpty = true
  · have hnil : recs = [] := List.isEmpty_iff.mp he
    subst hnil
    simp [get_overview]
  · unfold get_overview
    rw [if_neg he]
    dsimp only
    have hne : recs ≠ [] := fun h => he (by simp [h])
    set lats := (recs.map (·.latency_ms)).insertionSort (· ≤ ·) with hlats
    have hperm : lats.Perm (recs.map (·.latency_ms)) := List.perm_insertionSort _ _
    have hsort : lats.Sorted (· ≤ ·) := List.sorted_insertionSort _ _
    have hlen : lats.length = recs.length := by
      rw [hperm.length_eq, List.length_map]
    have h0 : 0 < lats.length := by
      rw [hlen]
      exact List.length_pos.mpr hne
    have hlne : lats ≠ [] := by
      intro h
      rw [h] at h0
      exact absurd h0 (by simp)
    have hidx95lt : min (lats.length * 95 / 100) (lats.length - 1) < lats.length :=
      Nat.lt_of_le_of_lt (min_le_right _ _) (Nat.sub_lt h0 Nat.one_pos)
    have hidx99lt : min (lats.length * 99 / 100) (lats.length - 1) < lats.length :=
      Nat.lt_of_le_of_lt (min_le_right _ _) (Nat.sub_lt h0 Nat.one_pos)
    have hp95 : pctl lats 95 100 = lats.getD (min (lats.length * 95 / 100) (lats.length - 1)) 0 := by
      rw [pctl, if_neg (by simp [hlne])]
    have hp99 : pctl lats 99 100 = lats.getD (min (lats.length * 99 / 100) (lats.length - 1)) 0 := by
      rw [pctl, if_neg (by simp [hlne])]
    have hmax : (lats.getLast?).getD 0 = lats.getD (lats.length - 1) 0 :=
      getLastD_eq_getD lats hlne
    refine ⟨rfl, ?_, ?_, ?_, ?_, ?_, ?_⟩
    · exact Nat.add_sub_cancel' (List.length_filter_le _ _)
    · refine (Nat.le_div_iff_mul_le h0).mpr ?_
      rw [Nat.mul_comm]
      exact length_mul_le_sum lats _ (fun x hx => sorted_head_le_mem lats hsort x hx)
    · rw [hmax]
      have hsum : lats.sum ≤ lats.length * lats.getD (lats.length - 1) 0 :=
        sum_le_length_mul lats _ (fun x hx => sorted_mem_le_last lats hsort x hx)
      have := Nat.div_le_div_right (c := lats.length) hsum
      rwa [Nat.mul_div_cancel_left _ h0] at this
    · rw [hp95]
      exact sorted_getD_le lats hsort 0 _ (Nat.zero_le _) hidx95lt
    · rw [hp95, hp99]
      refine sorted_getD_le lats hsort _ _ ?_ hidx99lt
      exact min_le_min (Nat.div_le_div_right (Nat.mul_le_mul_left _ (by norm_num)))
        (le_refl _)
    · rw [hp99, hmax]
      exact sorted_getD_le lats hsort _ _ (min_le_right _ _) (Nat.sub_lt h0 Nat.one_pos)

/-! ## Rate-limiting claim -/

/-- Reading back the window just written into the `_rate_limits` mapping. -/
theorem lookup_set_window (m : List (String × List Int)) (k : String) (v : List Int) :
    (set_window m k v).lookup k = some v := by
  induction m with
  | nil => simp [set_window]
  | cons kv rest ih =>
    obtain ⟨k1, v1⟩ := kv
    by_cases h : k1 = k
    · subst h
      simp [set_window]
    · have hbeq : (k == k1) = false := beq_eq_false_iff_ne.mpr (Ne.symm h)
      simp [set_window, h, List.lookup, hbeq, ih]

/-- C10. A chat-completion request (that passes the auth check, which runs
first) is rejected with 429 iff the caller key's window already holds
`RATE_LIMIT_MAX = 60` timestamps younger than 60 s at the time of the
request; and on rejection the key's window is only pruned — `now` is not
appended — so a denied request never extends the caller's blocked
period. -/
theorem C10_rate_limit (master_key : Option String) (st : ServerState) (now : Int)
    (req : Request) (oracle : Nat → Dict → AttemptResult) (latency_ms : Nat)
    (hauth : check_auth master_key req.authorization = true) :
    (status_of (chat_completions master_key st now req oracle latency_ms).1 = some 429 ↔
      RATE_LIMIT_MAX ≤
        (((st.rate_limits.lookup (api_key_of req.authorization)).getD []).filter
          (fun t => now - t < RATE_LIMIT_WINDOW)).length) ∧
    (status_of (chat_completions master_key st now req oracle latency_ms).1 = some 429 →
      ((chat_completions master_key st now req oracle latency_ms).2).rate_limits.lookup
          (api_key_of req.authorization) =
        some (((st.rate_limits.lookup (api_key_of req.authorization)).getD []).filter
          (fun t => now - t < RATE_LIMIT_WINDOW))) := by
  by_cases hr : RATE_LIMIT_MAX ≤
      (((st.rate_limits.lookup (api_key_of req.authorization)).getD []).filter
        (fun t => now - t < RATE_LIMIT_WINDOW)).length
  · have hcr : check_rate_limit st.rate_limits (api_key_of req.authorization) now =
        (set_window st.rate_limits (api_key_of req.authorization)
          (((st.rate_limits.lookup (api_key_of req.authorization)).getD []).filter
            (fun t => now - t < RATE_LIMIT_WINDOW)), false) := by
      unfold check_rate_limit
      rw [if_pos hr]
    have hout : (chat_completions master_key st now req oracle latency_ms).1 =
        Outcome.response 429 (.obj [("error", .obj
          [("message", .str "Rate limit exceeded. Try again later."),
           ("type", .str "rate_limit_error")])]) [] ∧
        ((chat_completions master_key st now req oracle latency_ms).2).rate_limits =
          set_window st.rate_limits (api_key_of req.authorization)
            (((st.rate_limits.lookup (api_key_of req.authorization)).getD []).filter
              (fun t => now - t < RATE_LIMIT_WINDOW)) := by
      unfold chat_completions
      simp [hauth, hcr]
    refine ⟨⟨fun _ => hr, fun _ => ?_⟩, fun _ => ?_⟩
    · rw [hout.1]
      rfl
    · rw [hout.2]
      exact lookup_set_window _ _ _
  · have hcr : check_rate_limit st.rate_limits (api_key_of req.authorization) now =
        (set_window st.rate_limits (api_key_of req.authorization)
          ((((st.rate_limits.lookup (api_key_of req.authorization)).getD []).filter
            (fun t => now - t < RATE_LIMIT_WINDOW)) ++ [now]), true) := by
      unfold check_rate_limit
      rw [if_neg hr]
    have hout : status_of (chat_completions master_key st now req oracle latency_ms).1 ≠
        some 429 := by
      unfold chat_completions
      by_cases hready : st.ready = true
      · simp [hauth, hcr, hready, planning_call_kwargs, get_ordered_deployments_keywords,
          status_of]
      · simp [hauth, hcr, hready, status_of]
    exact ⟨⟨fun hs => absurd hs hout, fun hs => absurd hs hr⟩,
      fun hs => absurd hs hout⟩

/-- Witness for C10 at a concrete accepted request with an empty window. -/
theorem C10_rate_limit_witness :
    check_auth none req0.authorization = true ∧
    ((status_of (chat_completions none (mkState [hfDep]) 100 req0 failOracle 5).1 =
        some 429 ↔
      RATE_LIMIT_MAX ≤
        ((((mkState [hfDep]).rate_limits.lookup (api_key_of req0.authorization)).getD
          []).filter (fun t => (100 : Int) - t < RATE_LIMIT_WINDOW)).length) ∧
    (status_of (chat_completions none (mkState [hfDep]) 100 req0 failOracle 5).1 =
        some 429 →
      ((chat_completions none (mkState [hfDep]) 100 req0 failOracle 5).2).rate_limits.lookup
          (api_key_of req0.authorization) =
        some ((((mkState [hfDep]).rate_limits.lookup (api_key_of req0.authorization)).getD
          []).filter (fun t => (100 : Int) - t < RATE_LIMIT_WINDOW)))) :=
  ⟨by decide, C10_rate_limit none (mkState [hfDep]) 100 req0 failOracle 5 (by decide)⟩

end RainyModel
